import Mathlib

/-!
Verification development for the exec-over-WebSocket and devlxd subsystems
of the lxd daemon. Each definition below is a shallow embedding of a Go
function from the repository (file and line references in the doc
comments); theorems settle the specification claims about them.
-/

namespace Lxd

/-! ## devlxd HTTP surface (src/unnamed/part_000)

A `DevLxdResponse` carries the body, HTTP status code and content type
(part_000 lines 29-33). The handlers modelled here only ever put strings
in the body, so `content` is a `String` (the Go field is `interface` typed
because other handlers return JSON arrays).
-/

/-- Test whether the string `s` starts with `p`, computing over the
underlying character lists (embeds Go `strings.HasPrefix`). -/
def strStartsWith (s p : String) : Bool :=
  p.data.isPrefixOf s.data

structure DevLxdResponse where
  content : String
  code : Nat
  ctype : String
deriving DecidableEq, Repr

/-- Container state as the devlxd handlers see it: a name, a config map
and an init PID. The Go config is a string map; we embed it as an
association list looked up with `configLookup`. -/
structure LxdContainer where
  name : String
  config : List (String × String)
  initPid : Nat
deriving DecidableEq, Repr

/-- Lookup in the embedded config map (Go `value, ok := c.config[key]`). -/
def configLookup (config : List (String × String)) (k : String) : Option String :=
  (config.find? (fun p => p.1 == k)).map Prod.snd

/-- Go map read without the `ok` flag (`c.config[key]`) yields the zero
value, the empty string, when the key is absent. -/
def configRead (config : List (String × String)) (k : String) : String :=
  (configLookup config k).getD ""

/-- Shallow embedding of the `configKeyGet` handler (part_000 lines 61-73):
keys outside the user namespace are Forbidden with body "not authorized",
missing keys are NotFound, present keys come back raw with status 200. -/
def configKeyGet (c : LxdContainer) (key : String) : DevLxdResponse :=
  if !(strStartsWith key "user.") then
    { content := "not authorized", code := 403, ctype := "raw" }
  else
    match configLookup c.config key with
    | none => { content := "not found", code := 404, ctype := "raw" }
    | some value => { content := value, code := 200, ctype := "raw" }

/-- Shallow embedding of the `metadataGet` handler (part_000 lines 75-78):
`fmt.Sprintf("#cloud-config\ninstance-id: %s\nlocal-hostname: %s\n%s", c.name, c.name, value)`
where `value` is the raw map read of `user.meta-data`. -/
def metadataGet (c : LxdContainer) : DevLxdResponse :=
  { content := "#cloud-config\ninstance-id: " ++ c.name ++ "\nlocal-hostname: "
      ++ c.name ++ "\n" ++ configRead c.config "user.meta-data"
    code := 200
    ctype := "raw" }

/-- C7: a devlxd GET on `/1.0/config/{key}` is Forbidden (403, body
"not authorized") when the key is outside the `user.` namespace, NotFound
when the key is in the namespace but absent from the container config,
and the raw value with status 200 when present. -/
theorem configKeyGet_cases (c : LxdContainer) (key : String) :
    (strStartsWith key "user." = false →
      configKeyGet c key = ⟨"not authorized", 403, "raw"⟩) ∧
    (strStartsWith key "user." = true → configLookup c.config key = none →
      configKeyGet c key = ⟨"not found", 404, "raw"⟩) ∧
    (∀ v, strStartsWith key "user." = true → configLookup c.config key = some v →
      configKeyGet c key = ⟨v, 200, "raw"⟩) := by
  refine ⟨fun h1 => ?_, fun h1 h2 => ?_, fun v h1 h2 => ?_⟩ <;>
    simp [configKeyGet, h1] <;> simp [*]

/-- Witness for C7 at concrete keys and a concrete container. -/
theorem configKeyGet_cases_witness :
    configKeyGet ⟨"c1", [("user.foo", "bar")], 5⟩ "limits.memory"
        = ⟨"not authorized", 403, "raw"⟩ ∧
    configKeyGet ⟨"c1", [("user.foo", "bar")], 5⟩ "user.absent"
        = ⟨"not found", 404, "raw"⟩ ∧
    configKeyGet ⟨"c1", [("user.foo", "bar")], 5⟩ "user.foo"
        = ⟨"bar", 200, "raw"⟩ :=
  ⟨(configKeyGet_cases ⟨"c1", [("user.foo", "bar")], 5⟩ "limits.memory").1
      (by decide),
   (configKeyGet_cases ⟨"c1", [("user.foo", "bar")], 5⟩ "user.absent").2.1
      (by decide) (by decide),
   (configKeyGet_cases ⟨"c1", [("user.foo", "bar")], 5⟩ "user.foo").2.2 "bar"
      (by decide) (by decide)⟩

/-- C8: the `/1.0/meta-data` body is exactly the `#cloud-config` line,
then `instance-id: <name>`, then `local-hostname: <name>`, then the raw
`user.meta-data` value; when the key is absent the three header lines are
still emitted (the trailing value is empty). -/
theorem metadataGet_layout (c : LxdContainer) :
    (metadataGet c).code = 200 ∧ (metadataGet c).ctype = "raw" ∧
    (metadataGet c).content =
      "#cloud-config\n" ++ ("instance-id: " ++ c.name ++ "\n")
        ++ ("local-hostname: " ++ c.name ++ "\n")
        ++ configRead c.config "user.meta-data" ∧
    (configLookup c.config "user.meta-data" = none →
      (metadataGet c).content =
        "#cloud-config\n" ++ ("instance-id: " ++ c.name ++ "\n")
          ++ ("local-hostname: " ++ c.name ++ "\n")) := by
  have key : ∀ v : String,
      "#cloud-config\ninstance-id: " ++ c.name ++ "\nlocal-hostname: "
          ++ c.name ++ "\n" ++ v =
        "#cloud-config\n" ++ ("instance-id: " ++ c.name ++ "\n")
          ++ ("local-hostname: " ++ c.name ++ "\n") ++ v := by
    intro v
    rw [show ("#cloud-config\ninstance-id: " : String)
          = "#cloud-config\n" ++ "instance-id: " from rfl,
        show ("\nlocal-hostname: " : String) = "\n" ++ "local-hostname: " from rfl]
    simp only [String.append_assoc]
  refine ⟨rfl, rfl, key _, fun h => ?_⟩
  have h2 := key ""
  simp only [configRead, h, Option.getD_none] at h2 ⊢
  simpa [metadataGet, configRead, h] using h2

/-- Witness for C8 at a container with no `user.meta-data` key. -/
theorem metadataGet_layout_witness :
    (metadataGet ⟨"c1", [], 5⟩).content
      = "#cloud-config\n" ++ ("instance-id: " ++ "c1" ++ "\n")
          ++ ("local-hostname: " ++ "c1" ++ "\n") :=
  (metadataGet_layout ⟨"c1", [], 5⟩).2.2.2 (by decide)

/-! ## Exec-over-WebSocket sessions (src/lxd/container_exec.go)

Connections stand in for `*websocket.Conn` pointers as plain `Nat` ids:
the claims only need to tell attached connections apart. The two Go maps
`fds` and `conns` of the execWs struct are embedded as association lists
keyed by the fd index; their per-session secrets come from
`RandomCryptoString` and are pairwise distinct, so which entry a secret
matches does not depend on map iteration order.
-/

abbrev Conn := Nat

/-- Idmap sets are external collaborators of this slice; only
`ShiftIntoNs` is called (container_exec.go line 248). -/
structure IdmapSet where
  shiftIntoNs : Int → Int → Int × Int

/-- The slice of `lxc.AttachOptions` manipulated by containerExecPost
(lines 231-242): environment cleared, env entries built as `k=v`, and the
working directory taken from the HOME entry. -/
structure AttachOptions where
  clearEnv : Bool
  env : List String
  cwd : Option String
deriving DecidableEq, Repr

/-- Attach options built from the optional request environment
(container_exec.go lines 231-242). -/
def optsOfEnvironment (environment : List (String × String)) : AttachOptions :=
  { clearEnv := true
    env := environment.map (fun p => p.1 ++ "=" ++ p.2)
    cwd := (environment.find? (fun p => p.1 == "HOME")).map Prod.snd }

/-- The execWs session state, with the fields container_exec.go reads and
writes: the per-fd secret table, the attached-connection table, the mode
flag and the uid/gid the PTY subordinate is chowned to. -/
structure ExecWsState where
  fds : List (Int × String)
  conns : List (Int × Option Conn)
  interactive : Bool
  rootUid : Int
  rootGid : Int
  command : List String
  options : AttachOptions
deriving DecidableEq, Repr

inductive ConnectErr where
  | permission
  | upgradeFailed
deriving DecidableEq, Repr

inductive Signal where
  | controlConnected
  | allConnected
deriving DecidableEq, Repr

/-- The fd whose secret equals the presented secret, if any (the loop
over s.fds at container_exec.go lines 46-47). -/
def findFdForSecret (fds : List (Int × String)) (secret : String) : Option Int :=
  (fds.find? (fun p => p.2 == secret)).map Prod.fst

/-- Go `s.conns[fd] = conn` on the embedded table. -/
def setConn (conns : List (Int × Option Conn)) (fd : Int) (c : Conn) :
    List (Int × Option Conn) :=
  conns.map (fun p => if p.1 = fd then (p.1, some c) else p)

/-- Everything observable about one Connect call: the returned error (if
any), the session state afterwards, whether the HTTP request was upgraded
to a WebSocket, and the readiness signals sent. -/
structure ConnectOutcome where
  err : Option ConnectErr
  finalState : ExecWsState
  upgradeAttempted : Bool
  signals : List Signal
deriving DecidableEq, Repr

/-- Shallow embedding of execWs.Connect (container_exec.go lines 45-73):
look for an fd whose secret matches; on a match upgrade the request (the
`upgradeOk` flag models whether the Upgrade call succeeds), record the
connection under that fd, and signal controlConnected for the control fd
or allConnected once no non-control fd is missing; with no match return
the permission error without upgrading or touching any state. -/
def Connect (s : ExecWsState) (secret : String) (conn : Conn) (upgradeOk : Bool) :
    ConnectOutcome :=
  match findFdForSecret s.fds secret with
  | none => ⟨some .permission, s, false, []⟩
  | some fd =>
    if !upgradeOk then ⟨some .upgradeFailed, s, true, []⟩
    else
      let s2 : ExecWsState := { s with conns := setConn s.conns fd conn }
      if fd = -1 then ⟨none, s2, true, [.controlConnected]⟩
      else if s2.conns.any (fun p => p.1 != -1 && p.2.isNone) then ⟨none, s2, true, []⟩
      else ⟨none, s2, true, [.allConnected]⟩

/-- Modelled from the spec: the HTTP status the daemon surfaces for the
Connect permission error. The generic error-to-HTTP mapping (SmartError)
is outside this repository slice; the source comment at container_exec.go
lines 70-71 says the error is "403, not 404, since this operation
actually exists". -/
def permissionHttpStatus : Nat := 403

/-- The fd indices of the conns table created for a new session
(container_exec.go lines 250-256): control and stdin always, stdout and
stderr only in batch mode. -/
def mkConnIndices (interactive : Bool) : List Int :=
  if interactive then [-1, 0] else [-1, 0, 1, 2]

/-- The fd indices the secret loop runs over (line 262):
`for i := -1; i < len(ws.conns)-1; i++`. -/
def mkFdIndices (numConns : Nat) : List Int :=
  (List.range numConns).map (fun k => (k : Int) - 1)

/-- Shallow embedding of the execWs construction in containerExecPost
(container_exec.go lines 244-270). The Go zero value of execWs makes
rootUid = rootGid = 0; they are shifted only when the container has an
idmap set. The secrets RandomCryptoString produces are abstracted as a
function of the fd index. -/
def mkExecWs (interactive : Bool) (idmapset : Option IdmapSet)
    (secret : Int → String) (command : List String) (opts : AttachOptions) :
    ExecWsState :=
  let conns := (mkConnIndices interactive).map (fun i => (i, (none : Option Conn)))
  let shifted := match idmapset with
    | none => ((0 : Int), (0 : Int))
    | some m => m.shiftIntoNs 0 0
  { fds := (mkFdIndices conns.length).map (fun i => (i, secret i))
    conns := conns
    interactive := interactive
    rootUid := shifted.1
    rootGid := shifted.2
    command := command
    options := opts }

/-- The owner passed to shared.OpenPty by Do() in interactive mode
(container_exec.go lines 82-85); batch mode allocates pipes instead and
opens no PTY. -/
def doPtyOwner (s : ExecWsState) : Option (Int × Int) :=
  if s.interactive then some (s.rootUid, s.rootGid) else none

/-- The decoded exec POST body (commandPostContent). -/
structure CommandPost where
  command : List String
  environment : List (String × String)
  waitForWS : Bool
  interactive : Bool
deriving DecidableEq, Repr

/-- One containerExecPost request together with the outcomes of its
environment interactions: whether the container resolves, is running,
the body reads, the JSON parses, and secret generation succeeds. -/
structure ExecPostInput where
  containerOk : Bool
  running : Bool
  bodyReadOk : Bool
  jsonOk : Bool
  randOk : Bool
  idmapset : Option IdmapSet
  secret : Int → String
  post : CommandPost

inductive BadReqReason where
  | notRunning
  | bodyReadError
  | jsonError
deriving DecidableEq, Repr

inductive ExecPostResponse where
  | smartError
  | badRequest (r : BadReqReason)
  | internalError
  | asyncWs (ws : ExecWsState)
  | asyncRun (command : List String)
deriving DecidableEq, Repr

/-- Shallow embedding of containerExecPost (container_exec.go lines
210-292): resolve the container, require it running, read and parse the
body, then either advertise a websocket session or return the
null-device-backed async run. No check of post.Command appears anywhere
in the handler. -/
def containerExecPost (inp : ExecPostInput) : ExecPostResponse :=
  if !inp.containerOk then .smartError
  else if !inp.running then .badRequest .notRunning
  else if !inp.bodyReadOk then .badRequest .bodyReadError
  else if !inp.jsonOk then .badRequest .jsonError
  else if inp.post.waitForWS then
    if !inp.randOk then .internalError
    else .asyncWs (mkExecWs inp.post.interactive inp.idmapset inp.secret
      inp.post.command (optsOfEnvironment inp.post.environment))
  else .asyncRun inp.post.command

/-- Lookup in the embedded conns table. -/
def lookupConn (conns : List (Int × Option Conn)) (fd : Int) : Option (Option Conn) :=
  (conns.find? (fun p => p.1 == fd)).map Prod.snd

/-- C4: a connect call whose secret matches no fd of the session fails
with the permission error, surfaced as HTTP 403 (not 404); the request is
never upgraded and the session state is returned unchanged; moreover any
call that does upgrade must have confirmed a secret match first. -/
theorem connect_unknown_secret_permission (s : ExecWsState) (secret : String)
    (conn : Conn) (u : Bool)
    (h : findFdForSecret s.fds secret = none) :
    Connect s secret conn u = ⟨some .permission, s, false, []⟩ ∧
    permissionHttpStatus = 403 ∧ permissionHttpStatus ≠ 404 ∧
    (∀ s2 sec2 c2 u2, (Connect s2 sec2 c2 u2).upgradeAttempted = true →
      findFdForSecret s2.fds sec2 ≠ none) := by
  refine ⟨by simp [Connect, h], rfl, by decide, ?_⟩
  intro s2 sec2 c2 u2 hup hnone
  simp [Connect, hnone] at hup

/-- Witness for C4: attaching to a fresh interactive session with a
wrong secret. -/
theorem connect_unknown_secret_permission_witness :
    Connect ⟨[(-1, "sc"), (0, "s0")], [(-1, none), (0, none)], true, 0, 0,
        ["sh"], ⟨true, [], none⟩⟩ "bad" 7 true
      = ⟨some .permission,
         ⟨[(-1, "sc"), (0, "s0")], [(-1, none), (0, none)], true, 0, 0,
          ["sh"], ⟨true, [], none⟩⟩, false, []⟩ :=
  (connect_unknown_secret_permission
    ⟨[(-1, "sc"), (0, "s0")], [(-1, none), (0, none)], true, 0, 0,
     ["sh"], ⟨true, [], none⟩⟩ "bad" 7 true (by decide)).1

/-- Concrete secrets for the C2 session. -/
def c2Secrets : Int → String := fun i => if i = -1 then "sc" else "s0"

/-- A freshly advertised interactive session (reachable via
containerExecPost with wait-for-websocket true). -/
def c2Session : ExecWsState := mkExecWs true none c2Secrets ["sh"] ⟨true, [], none⟩

/-- The C2 session after the stdio fd 0 has been attached once with
connection id 7. -/
def c2AfterFirst : ExecWsState := (Connect c2Session "s0" 7 true).finalState

/-- C2 counterexample: presenting the fd 0 secret a second time does not
fail with Conflict — the call succeeds (no error) and replaces the
previously attached connection 7 with the new connection 8. -/
theorem connect_second_attach_no_conflict :
    lookupConn c2AfterFirst.conns 0 = some (some 7) ∧
    (Connect c2AfterFirst "s0" 8 true).err = none ∧
    lookupConn (Connect c2AfterFirst "s0" 8 true).finalState.conns 0
      = some (some 8) := by decide

/-- C2 amended: a connect call whose secret matches fd gains admission
unconditionally — whether or not a WebSocket is already attached at that
fd — and overwrites the conns entry with the new connection; the source
has no Conflict path. -/
theorem connect_matching_secret_always_admits (s : ExecWsState) (secret : String)
    (conn : Conn) (fd : Int)
    (h : findFdForSecret s.fds secret = some fd) :
    (Connect s secret conn true).err = none ∧
    (Connect s secret conn true).finalState
      = { s with conns := setConn s.conns fd conn } := by
  simp only [Connect, h]
  split <;> (try split) <;> (try split) <;> simp_all

/-- Witness for amended C2: the second attach on the already-attached
session is admitted and rewrites the fd 0 entry. -/
theorem connect_matching_secret_always_admits_witness :
    (Connect c2AfterFirst "s0" 8 true).err = none ∧
    (Connect c2AfterFirst "s0" 8 true).finalState
      = { c2AfterFirst with conns := setConn c2AfterFirst.conns 0 8 } :=
  connect_matching_secret_always_admits c2AfterFirst "s0" 8 0 (by decide)

/-- The C3 request: valid JSON, running container, empty argv, batch
mode without websockets. -/
def c3Input : ExecPostInput :=
  { containerOk := true, running := true, bodyReadOk := true, jsonOk := true,
    randOk := true, idmapset := none, secret := fun _ => "s",
    post := { command := [], environment := [], waitForWS := false,
              interactive := false } }

/-- Whether a response is some BadRequest (used to state that a handler
does not answer with BadRequest without binders). -/
def ExecPostResponse.isBadRequest : ExecPostResponse → Bool
  | .badRequest _ => true
  | _ => false

/-- C3 counterexample: a valid-JSON exec POST on a running container
whose argv is empty is not answered with BadRequest; the handler returns
the async null-device run for the empty command. -/
theorem execPost_empty_argv_not_badRequest :
    containerExecPost c3Input = .asyncRun [] ∧
    (containerExecPost c3Input).isBadRequest = false := by
  exact ⟨rfl, rfl⟩

/-- C3 amended: the handler performs no argv check at all — once the
container resolves and is running and the body reads and parses,
BadRequest is impossible regardless of the command, and without
wait-for-websocket the response is the async run of that (possibly
empty) command. -/
theorem execPost_no_argv_check (inp : ExecPostInput)
    (h1 : inp.containerOk = true) (h2 : inp.running = true)
    (h3 : inp.bodyReadOk = true) (h4 : inp.jsonOk = true) :
    (containerExecPost inp).isBadRequest = false ∧
    (inp.post.waitForWS = false →
      containerExecPost inp = .asyncRun inp.post.command) := by
  constructor
  · simp only [containerExecPost, h1, h2, h3, h4]
    by_cases h5 : inp.post.waitForWS <;> by_cases h6 : inp.randOk <;>
      simp [h5, h6, ExecPostResponse.isBadRequest]
  · intro h5
    simp [containerExecPost, h1, h2, h3, h4, h5]

/-- Witness for amended C3 at the concrete empty-argv request. -/
theorem execPost_no_argv_check_witness :
    (containerExecPost c3Input).isBadRequest = false ∧
    containerExecPost c3Input = .asyncRun [] :=
  ⟨(execPost_no_argv_check c3Input rfl rfl rfl rfl).1,
   (execPost_no_argv_check c3Input rfl rfl rfl rfl).2 rfl⟩

/-- C10: an interactive session created for a container with no idmap
set keeps the Go zero values rootUid = rootGid = 0, so Do() opens the
PTY with its subordinate side owned by host uid 0 and gid 0. -/
theorem interactive_no_idmap_pty_owner_zero (secret : Int → String)
    (command : List String) (opts : AttachOptions) :
    (mkExecWs true none secret command opts).rootUid = 0 ∧
    (mkExecWs true none secret command opts).rootGid = 0 ∧
    doPtyOwner (mkExecWs true none secret command opts) = some (0, 0) :=
  ⟨rfl, rfl, rfl⟩

/-! ## Advertised fds metadata (claim C6) -/

/-- Decimal digits of a Nat, with a structurally recursive fuel argument
so the definition evaluates inside the kernel (fuel n + 1 is always
enough since the digit count of n is at most n for positive n). -/
def natDigitsAux : Nat → Nat → List Char
  | 0, _ => []
  | fuel + 1, n =>
    if n = 0 then [] else natDigitsAux fuel (n / 10) ++ [Char.ofNat (48 + n % 10)]

/-- Decimal representation of an Int, embedding Go strconv.Itoa. -/
def intToDecimal : Int → String
  | .ofNat n => if n = 0 then "0" else ⟨natDigitsAux (n + 1) n⟩
  | .negSucc n => ⟨'-' :: natDigitsAux (n + 2) (n + 1)⟩

/-- Shallow embedding of execWs.Metadata (container_exec.go lines
32-43): fd -1 becomes the key "control", any other fd its decimal
string; the secret is carried over unchanged. -/
def encodeFdKey (fd : Int) : String :=
  if fd = -1 then "control" else intToDecimal fd

/-- The fds table as advertised in the operation metadata. -/
def encodeFds (fds : List (Int × String)) : List (String × String) :=
  fds.map (fun p => (encodeFdKey p.1, p.2))

/-- Value of a digit character, if it is one. -/
def decDigitVal (c : Char) : Option Nat :=
  if 48 ≤ c.toNat ∧ c.toNat ≤ 57 then some (c.toNat - 48) else none

/-- Parse a nonempty all-digit character list as a Nat. -/
def decNatOfDigits : List Char → Option Nat
  | [] => none
  | cs => cs.foldl
      (fun acc c =>
        match acc, decDigitVal c with
        | some a, some d => some (a * 10 + d)
        | _, _ => none)
      (some 0)

/-- Modelled from the spec: the client-side decoding of one advertised
fds key — "control" back to index -1, a decimal string back to its
index. The decoder itself is not part of this repository slice; the spec
states that decoding the advertised metadata yields the original secret
set. -/
def decodeFdKey (k : String) : Option Int :=
  if k = "control" then some (-1)
  else
    match k.data with
    | '-' :: rest => (decNatOfDigits rest).map (fun n => -(n : Int))
    | cs => (decNatOfDigits cs).map (fun n => (n : Int))

/-- Modelled from the spec: decoding the advertised metadata back into
an index-to-secret table, dropping undecodable keys. -/
def decodeFds (m : List (String × String)) : List (Int × String) :=
  m.filterMap (fun p => (decodeFdKey p.1).map (fun fd => (fd, p.2)))

/-- Lookup in the advertised metadata map. -/
def jmapLookup (m : List (String × String)) (k : String) : Option String :=
  (m.find? (fun p => p.1 == k)).map Prod.snd

/-- C6: for the sessions the handler creates, encoding maps fd -1 to
"control" and fd i to its decimal string, decoding the advertised
metadata returns exactly the original index-to-secret table, interactive
sessions advertise no "1" or "2" key, and batch sessions advertise all
of "control", "0", "1" and "2" carrying the respective secrets. -/
theorem fds_metadata_roundtrip (secret : Int → String) (cmd : List String)
    (opts : AttachOptions) :
    decodeFds (encodeFds (mkExecWs true none secret cmd opts).fds)
        = (mkExecWs true none secret cmd opts).fds ∧
    decodeFds (encodeFds (mkExecWs false none secret cmd opts).fds)
        = (mkExecWs false none secret cmd opts).fds ∧
    jmapLookup (encodeFds (mkExecWs true none secret cmd opts).fds) "1" = none ∧
    jmapLookup (encodeFds (mkExecWs true none secret cmd opts).fds) "2" = none ∧
    jmapLookup (encodeFds (mkExecWs false none secret cmd opts).fds) "control"
        = some (secret (-1)) ∧
    jmapLookup (encodeFds (mkExecWs false none secret cmd opts).fds) "0"
        = some (secret 0) ∧
    jmapLookup (encodeFds (mkExecWs false none secret cmd opts).fds) "1"
        = some (secret 1) ∧
    jmapLookup (encodeFds (mkExecWs false none secret cmd opts).fds) "2"
        = some (secret 2) :=
  ⟨rfl, rfl, rfl, rfl, rfl, rfl, rfl, rfl⟩

/-! ## Batch-mode stdEOF synchronization (claim C1)

In batch mode Do() starts three bridge goroutines (container_exec.go
lines 168-179): the goroutine for index 0 receives the stdin stream and
closes ttys[0] without touching stdEOF, while the goroutines for indices
1 and 2 send true on the unbuffered channel stdEOF once their output
stream has completed. After runCommand returns, Do() closes the three
ttys and then performs a single receive from stdEOF (lines 188-193)
before closing everything and returning.
-/

/-- Indices of the bridge goroutines that send on stdEOF when their
output stream completes: the i ≠ 0 branch of the loop at lines 168-179,
for stdout (1) and stderr (2). -/
def batchStdEOFSenders : List Nat := [1, 2]

/-- The number of receives from stdEOF that Do() performs before
returning: exactly one, at line 192. -/
def batchDoStdEOFRecvCount : Nat := 1

/-- stdEOF is unbuffered, so each receive in Do() pairs with one send,
in the order in which the output bridges complete; once Do() has done
all its receives it returns, having waited for exactly the bridges
paired so far. -/
def bridgesWaitedFor (completionOrder : List Nat) : List Nat :=
  completionOrder.take batchDoStdEOFRecvCount

/-- Output bridges whose completion can never be handed to Do(): their
send on stdEOF has no matching receive once Do() has returned, so the
sending goroutine blocks forever. -/
def sendersLeftBlocked (completionOrder : List Nat) : List Nat :=
  completionOrder.drop batchDoStdEOFRecvCount

/-- C1 (code bug): in the batch execution where the stdout bridge (1)
completes before the stderr bridge (2), Do() pairs its single stdEOF
receive with bridge 1 and returns — bridge 2 has not been waited for
when the result is delivered, and its send on stdEOF blocks forever.
The claim requires Do() to return only after both output bridges have
completed. -/
theorem batch_do_waits_for_one_bridge_only :
    batchStdEOFSenders.length = 2 ∧ batchDoStdEOFRecvCount = 1 ∧
    bridgesWaitedFor [1, 2] = [1] ∧ 2 ∉ bridgesWaitedFor [1, 2] ∧
    sendersLeftBlocked [1, 2] = [2] := by decide

/-! ## PID-to-container resolution (src/unnamed/part_000, findContainerForPid) -/

/-- Errors findContainerForPid can surface: failed proc reads (cmdline,
status or ns symlink, including the Atoi of the PPid capture), database
enumeration failure, container load failure, and the terminal
pidNotInContainerErr. -/
inductive ResolveErr where
  | readErr (pid : Nat) (file : String)
  | dbErr
  | loadErr (name : String)
  | notInContainer
deriving DecidableEq, Repr

instance decEqExcept {ε α : Type} [DecidableEq ε] [DecidableEq α] :
    DecidableEq (Except ε α) := fun a b =>
  match a, b with
  | .ok x, .ok y =>
    if h : x = y then .isTrue (congrArg Except.ok h)
    else .isFalse (fun hc => h (Except.ok.inj hc))
  | .error x, .error y =>
    if h : x = y then .isTrue (congrArg Except.error h)
    else .isFalse (fun hc => h (Except.error.inj hc))
  | .ok _, .error _ => .isFalse (fun hc => Except.noConfusion hc)
  | .error _, .ok _ => .isFalse (fun hc => Except.noConfusion hc)

/-- The environment findContainerForPid reads. `cmdline p` embeds the
read of /proc/p/cmdline; `ppidOf p` embeds reading /proc/p/status and
extracting the PPid line with the regex plus Atoi (error = read or Atoi
failure, `ok none` = no line matched, in which case the Go loop keeps the
same pid and spins); `pidNs p` embeds Readlink of /proc/p/ns/pid;
`containers` embeds dbListContainers and `load` embeds newLxdContainer. -/
structure ProcEnv where
  cmdline : Nat → Except ResolveErr String
  ppidOf : Nat → Except ResolveErr (Option Nat)
  pidNs : Nat → Except ResolveErr String
  containers : Except ResolveErr (List String)
  load : String → Except ResolveErr LxdContainer

/-- Split a character list at every space, preserving empty fields
(embeds Go strings.Split(s, " ")). -/
def splitOnSpaceAux : List Char → List Char → List (List Char)
  | [], acc => [acc.reverse]
  | c :: rest, acc =>
    if c = ' ' then acc.reverse :: splitOnSpaceAux rest []
    else splitOnSpaceAux rest (c :: acc)

/-- Final space-separated token of a command line — Go
`parts := strings.Split(cmdline, " "); parts[len(parts)-1]` (container
names contain no spaces, part_000 line 315). -/
def lastSpaceTok (s : String) : String :=
  ⟨((splitOnSpaceAux s.data []).getLast?).getD []⟩

/-- The sentinel marking a container monitor process (part_000 line 314). -/
def monitorSentinel : String := "[lxc monitor]"

/-- The monitor-walk loop of findContainerForPid (part_000 lines
306-340): while pid > 1, read the cmdline; a cmdline starting with the
monitor sentinel ends the walk with the cmdline's last token; otherwise
step to the parent pid taken from the status file. A read failure aborts
with that error. The outer Option is fuel: none means the loop has not
exited within `fuel` iterations (the Go loop is unbounded; a status file
with no PPid line leaves pid unchanged and spins forever). -/
def walkForMonitor (env : ProcEnv) : Nat → Nat → Option (Except ResolveErr (Option String))
  | 0, _ => none
  | fuel + 1, pid =>
    if pid ≤ 1 then some (.ok none)
    else
      match env.cmdline pid with
      | .error e => some (.error e)
      | .ok c =>
        if strStartsWith c monitorSentinel then some (.ok (some (lastSpaceTok c)))
        else
          match env.ppidOf pid with
          | .error e => some (.error e)
          | .ok none => walkForMonitor env fuel pid
          | .ok (some p2) => walkForMonitor env fuel p2

/-- The PID-namespace fallback loop of findContainerForPid (part_000
lines 352-366): load each enumerated container in turn; a load failure
or ns-read failure aborts immediately with that error; the first
container whose init shares the original PID namespace is returned; if
the list is exhausted the result is pidNotInContainerErr. -/
def findFirstNsMatch (env : ProcEnv) (origNs : String) :
    List String → Except ResolveErr LxdContainer
  | [] => .error .notInContainer
  | n :: rest =>
    match env.load n with
    | .error e => .error e
    | .ok c =>
      match env.pidNs c.initPid with
      | .error e => .error e
      | .ok ns => if origNs == ns then .ok c else findFirstNsMatch env origNs rest

/-- Shallow embedding of findContainerForPid (part_000 lines 288-369):
walk the parent chain looking for a monitor and load the container it
names; if the walk exits at PID 1 without a monitor, read the caller's
PID-namespace link, enumerate the containers and return the first
namespace match; otherwise pidNotInContainerErr. The outer Option is
fuel for the walk. -/
def findContainerForPid (env : ProcEnv) (fuel : Nat) (pid : Nat) :
    Option (Except ResolveErr LxdContainer) :=
  match walkForMonitor env fuel pid with
  | none => none
  | some (.error e) => some (.error e)
  | some (.ok (some name)) => some (env.load name)
  | some (.ok none) =>
    some (match env.pidNs pid with
      | .error e => .error e
      | .ok origNs =>
        match env.containers with
        | .error e => .error e
        | .ok names => findFirstNsMatch env origNs names)

/-- An environment in which every proc read succeeds, every status file
has a PPid line, and every container loads — the setting in which claim
C5 narrates the two-step algorithm. -/
def pureEnv (cmdlineF : Nat → String) (ppidF : Nat → Nat) (nsF : Nat → String)
    (names : List String) (loadF : String → LxdContainer) : ProcEnv where
  cmdline := fun p => .ok (cmdlineF p)
  ppidOf := fun p => .ok (some (ppidF p))
  pidNs := fun p => .ok (nsF p)
  containers := .ok names
  load := fun n => .ok (loadF n)

/-- Modelled from the spec: the ancestor chain visited when walking the
parent links upward from pid while pid is greater than 1; none when the
walk does not exit within the fuel. -/
def specChain (ppidF : Nat → Nat) : Nat → Nat → Option (List Nat)
  | 0, _ => none
  | fuel + 1, pid =>
    if pid ≤ 1 then some []
    else (specChain ppidF fuel (ppidF pid)).map (fun l => pid :: l)

/-- Modelled from the spec: the two-step resolution of claim C5. First
ancestor whose command line begins with the container-monitor sentinel
names the container by the final token of that command line; failing
that, the first enumerated container whose init PID has the same
PID-namespace link as the caller; failing both, no match (none). -/
def specResolve (cmdlineF : Nat → String) (nsF : Nat → String)
    (names : List String) (loadF : String → LxdContainer)
    (chain : List Nat) (pid : Nat) : Option LxdContainer :=
  match chain.find? (fun q => strStartsWith (cmdlineF q) monitorSentinel) with
  | some q => some (loadF (lastSpaceTok (cmdlineF q)))
  | none =>
    (names.find? (fun n => nsF pid == nsF (loadF n).initPid)).map loadF

/-- On a pure environment, the monitor walk returns what the first
monitor ancestor in the spec-level chain dictates. -/
theorem walkForMonitor_pure (cmdlineF : Nat → String) (ppidF : Nat → Nat)
    (nsF : Nat → String) (names : List String) (loadF : String → LxdContainer) :
    ∀ fuel pid chain, specChain ppidF fuel pid = some chain →
      walkForMonitor (pureEnv cmdlineF ppidF nsF names loadF) fuel pid =
        some (.ok ((chain.find?
            (fun q => strStartsWith (cmdlineF q) monitorSentinel)).map
          (fun q => lastSpaceTok (cmdlineF q)))) := by
  intro fuel
  induction fuel with
  | zero => intro pid chain h; simp [specChain] at h
  | succ f ih =>
    intro pid chain h
    simp only [specChain] at h
    by_cases hp : pid ≤ 1
    · rw [if_pos hp] at h
      obtain rfl : ([] : List Nat) = chain := by injection h
      simp [walkForMonitor, hp]
    · rw [if_neg hp] at h
      cases hrec : specChain ppidF f (ppidF pid) with
      | none => rw [hrec] at h; simp at h
      | some l =>
        rw [hrec] at h
        obtain rfl : pid :: l = chain := Option.some.inj h
        have hcl : (pureEnv cmdlineF ppidF nsF names loadF).cmdline pid
            = .ok (cmdlineF pid) := rfl
        have hpp : (pureEnv cmdlineF ppidF nsF names loadF).ppidOf pid
            = .ok (some (ppidF pid)) := rfl
        by_cases hc : strStartsWith (cmdlineF pid) monitorSentinel = true
        · simp only [walkForMonitor, hcl, List.find?_cons]
          rw [if_neg hp, if_pos hc]
          simp only [hc]
          rfl
        · simp only [walkForMonitor, hcl, hpp, List.find?_cons]
          rw [if_neg hp, if_neg hc, ih (ppidF pid) l hrec]
          simp only [hc]

/-- On a pure environment, the fallback loop returns the first
namespace match of the enumeration, or NotInContainer. -/
theorem findFirstNsMatch_pure (cmdlineF : Nat → String) (ppidF : Nat → Nat)
    (nsF : Nat → String) (names0 : List String) (loadF : String → LxdContainer)
    (origNs : String) :
    ∀ names,
      findFirstNsMatch (pureEnv cmdlineF ppidF nsF names0 loadF) origNs names =
        match names.find? (fun n => origNs == nsF (loadF n).initPid) with
        | some n => .ok (loadF n)
        | none => .error .notInContainer := by
  intro names
  induction names with
  | nil => rfl
  | cons n rest ih =>
    have hload : (pureEnv cmdlineF ppidF nsF names0 loadF).load n
        = .ok (loadF n) := rfl
    have hnsl : (pureEnv cmdlineF ppidF nsF names0 loadF).pidNs (loadF n).initPid
        = .ok (nsF (loadF n).initPid) := rfl
    simp only [findFirstNsMatch, hload, hnsl]
    by_cases hm : (origNs == nsF (loadF n).initPid) = true
    · rw [if_pos hm]
      simp only [List.find?_cons, hm]
    · rw [if_neg hm, ih]
      simp only [List.find?_cons, hm]

/-- C5: on an environment where every proc read succeeds and every
container loads, findContainerForPid implements exactly the two-step
resolution the claim describes — the first monitor ancestor on the
parent chain names the container by the final space-separated token of
its command line; with no monitor, the first enumerated container whose
init shares the caller's PID-namespace link is returned; with neither,
the NotInContainer error. -/
theorem findContainerForPid_two_step (cmdlineF : Nat → String) (ppidF : Nat → Nat)
    (nsF : Nat → String) (names : List String) (loadF : String → LxdContainer)
    (fuel pid : Nat) (chain : List Nat)
    (hfuel : specChain ppidF fuel pid = some chain) :
    findContainerForPid (pureEnv cmdlineF ppidF nsF names loadF) fuel pid =
      some (match specResolve cmdlineF nsF names loadF chain pid with
        | some c => .ok c
        | none => .error .notInContainer) := by
  unfold findContainerForPid
  rw [walkForMonitor_pure cmdlineF ppidF nsF names loadF fuel pid chain hfuel]
  cases hfind : chain.find? (fun q => strStartsWith (cmdlineF q) monitorSentinel) with
  | some q => simp [specResolve, hfind, pureEnv]
  | none =>
    have hmap : Option.map (fun q => lastSpaceTok (cmdlineF q)) none
        = (none : Option String) := rfl
    have hlift : (pureEnv cmdlineF ppidF nsF names loadF).pidNs pid
        = .ok (nsF pid) := rfl
    have hdb : (pureEnv cmdlineF ppidF nsF names loadF).containers
        = .ok names := rfl
    simp only [hmap, hlift, hdb]
    rw [findFirstNsMatch_pure]
    simp only [specResolve, hfind]
    cases names.find? (fun n => nsF pid == nsF (loadF n).initPid) <;> simp

/-- Command lines for the C5 witness: pid 2 is a monitor for container
c1, everything else is a shell. -/
def c5Cmdline : Nat → String :=
  fun p => if p = 2 then "[lxc monitor] /var/lib/lxd/containers c1" else "/bin/sh"

/-- Parent links for the C5 witness: each pid's parent is its
predecessor. -/
def c5Ppid : Nat → Nat := fun p => p - 1

/-- Namespace links for the C5 witness. -/
def c5Ns : Nat → String := fun _ => "pidns"

/-- Container loader for the C5 witness. -/
def c5Load : String → LxdContainer := fun n => ⟨n, [], 9⟩

/-- Witness for C5: from pid 3 the walk visits 3 then the monitor at 2,
and resolution loads container c1 named by the monitor command line. -/
theorem findContainerForPid_two_step_witness :
    specChain c5Ppid 3 3 = some [3, 2] ∧
    findContainerForPid (pureEnv c5Cmdline c5Ppid c5Ns ["cX"] c5Load) 3 3
      = some (.ok ⟨"c1", [], 9⟩) := by
  refine ⟨by decide, ?_⟩
  rw [findContainerForPid_two_step c5Cmdline c5Ppid c5Ns ["cX"] c5Load 3 3 [3, 2]
    (by decide)]
  decide

/-- Skipping a block of successfully loading, non-matching containers
leaves the fallback loop's result unchanged. -/
theorem findFirstNsMatch_skip (env : ProcEnv) (origNs : String) :
    ∀ good l,
      (∀ n ∈ good, ∃ c ns2, env.load n = .ok c ∧
        env.pidNs c.initPid = .ok ns2 ∧ origNs ≠ ns2) →
      findFirstNsMatch env origNs (good ++ l) = findFirstNsMatch env origNs l := by
  intro good
  induction good with
  | nil => intro l _; simp
  | cons n g ih =>
    intro l hg
    obtain ⟨c, ns2, hload, hns2, hne⟩ := hg n (by simp)
    simp only [List.cons_append, findFirstNsMatch, hload, hns2]
    rw [if_neg (by simp [hne])]
    exact ih l (fun m hm => hg m (by simp [hm]))

/-- If the fallback loop ends in the NotInContainer error and the
environment can never itself yield that error value (faithful to the
source, where pidNotInContainerErr is produced only at the end of this
loop, part_000 line 368), then every enumerated container loaded, its
init's ns link was read, and none matched the original namespace. -/
theorem findFirstNsMatch_inv (env : ProcEnv) (origNs : String)
    (hl : ∀ n, env.load n ≠ .error .notInContainer)
    (hn : ∀ p, env.pidNs p ≠ .error .notInContainer) :
    ∀ names, findFirstNsMatch env origNs names = .error .notInContainer →
      ∀ n ∈ names, ∃ c ns2, env.load n = .ok c ∧
        env.pidNs c.initPid = .ok ns2 ∧ origNs ≠ ns2 := by
  intro names
  induction names with
  | nil => intro _ n hmem; simp at hmem
  | cons m rest ih =>
    intro h n hmem
    cases hld : env.load m with
    | error e =>
      simp only [findFirstNsMatch, hld] at h
      obtain rfl : e = .notInContainer := Except.error.inj h
      exact absurd hld (hl m)
    | ok c =>
      cases hns2 : env.pidNs c.initPid with
      | error e =>
        simp only [findFirstNsMatch, hld, hns2] at h
        obtain rfl : e = .notInContainer := Except.error.inj h
        exact absurd hns2 (hn c.initPid)
      | ok ns =>
        simp only [findFirstNsMatch, hld, hns2] at h
        by_cases hm : (origNs == ns) = true
        · rw [if_pos hm] at h
          exact Except.noConfusion h
        · rw [if_neg hm] at h
          rcases List.mem_cons.mp hmem with rfl | hmem2
          · exact ⟨c, ns, hld, hns2, by simpa using hm⟩
          · exact ih h n hmem2

/-- C9: once the namespace fallback runs, a failing container load — or
a failing read of a loaded container's init ns link — aborts resolution
immediately with that error, even when a later container in the
enumeration would have matched the caller's namespace; and, provided the
environment never itself yields the pidNotInContainerErr value (which
the source produces only at the end of this loop), NotInContainer is
returned exactly when every enumerated container loads, its init's ns
link reads, and none matches — in particular only then. -/
theorem fallback_error_propagation (env : ProcEnv) (fuel pid : Nat)
    (origNs : String) (names : List String)
    (hwalk : walkForMonitor env fuel pid = some (.ok none))
    (hns : env.pidNs pid = .ok origNs)
    (hdb : env.containers = .ok names) :
    (∀ good rest badName e, names = good ++ badName :: rest →
      (∀ n ∈ good, ∃ c ns2, env.load n = .ok c ∧
        env.pidNs c.initPid = .ok ns2 ∧ origNs ≠ ns2) →
      env.load badName = .error e →
      (∃ m ∈ rest, ∃ cm, env.load m = .ok cm ∧
        env.pidNs cm.initPid = .ok origNs) →
      findContainerForPid env fuel pid = some (.error e)) ∧
    (∀ good rest badName c e, names = good ++ badName :: rest →
      (∀ n ∈ good, ∃ c2 ns2, env.load n = .ok c2 ∧
        env.pidNs c2.initPid = .ok ns2 ∧ origNs ≠ ns2) →
      env.load badName = .ok c →
      env.pidNs c.initPid = .error e →
      (∃ m ∈ rest, ∃ cm, env.load m = .ok cm ∧
        env.pidNs cm.initPid = .ok origNs) →
      findContainerForPid env fuel pid = some (.error e)) ∧
    ((∀ n, env.load n ≠ .error .notInContainer) →
      (∀ p, env.pidNs p ≠ .error .notInContainer) →
      (findContainerForPid env fuel pid = some (.error .notInContainer) ↔
        ∀ n ∈ names, ∃ c ns2, env.load n = .ok c ∧
          env.pidNs c.initPid = .ok ns2 ∧ origNs ≠ ns2)) := by
  unfold findContainerForPid
  rw [hwalk]
  simp only [hns, hdb]
  refine ⟨?_, ?_, ?_⟩
  · intro good rest badName e hnames hgood hbad _
    subst hnames
    rw [findFirstNsMatch_skip env origNs good _ hgood]
    simp [findFirstNsMatch, hbad]
  · intro good rest badName c e hnames hgood hbadload hbadns _
    subst hnames
    rw [findFirstNsMatch_skip env origNs good _ hgood]
    simp [findFirstNsMatch, hbadload, hbadns]
  · intro hl hn2
    constructor
    · intro h
      exact findFirstNsMatch_inv env origNs hl hn2 names (Option.some.inj h)
    · intro hall
      have hskip := findFirstNsMatch_skip env origNs names [] hall
      rw [List.append_nil] at hskip
      rw [hskip]
      simp [findFirstNsMatch]

/-- Environment for the C9 witness, first part: container "broken"
fails to load, container "match" would match the caller's namespace. -/
def c9Env : ProcEnv :=
  { cmdline := fun _ => .ok "/sbin/init"
    ppidOf := fun _ => .ok (some 1)
    pidNs := fun _ => .ok "pidnsA"
    containers := .ok ["broken", "match"]
    load := fun n =>
      if n = "broken" then .error (.loadErr "broken") else .ok ⟨n, [], 11⟩ }

/-- Environment for the C9 witness, second part: container "nsbad"
loads but the ns link of its init (pid 13) fails to read; container
"match" would match the caller's namespace. -/
def c9EnvNs : ProcEnv :=
  { cmdline := fun _ => .ok "/sbin/init"
    ppidOf := fun _ => .ok (some 1)
    pidNs := fun p =>
      if p = 13 then .error (.readErr 13 "ns/pid") else .ok "pidnsA"
    containers := .ok ["nsbad", "match"]
    load := fun n => .ok ⟨n, [], if n = "nsbad" then 13 else 11⟩ }

/-- Environment for the C9 witness, third part: both containers load
and read but neither shares the caller's namespace. -/
def c9EnvAllOk : ProcEnv :=
  { cmdline := fun _ => .ok "/sbin/init"
    ppidOf := fun _ => .ok (some 1)
    pidNs := fun p => .ok (if p = 1 then "pidnsA" else "pidnsB")
    containers := .ok ["c1", "c2"]
    load := fun n => .ok ⟨n, [], 7⟩ }

/-- Witness for C9: the load failure of "broken" aborts resolution with
that error although "match" comes later and matches; the ns-read
failure of the loaded "nsbad" aborts likewise; and with every container
loading and reading and none matching the result is NotInContainer. -/
theorem fallback_error_propagation_witness :
    findContainerForPid c9Env 1 1 = some (.error (.loadErr "broken")) ∧
    findContainerForPid c9EnvNs 1 1 = some (.error (.readErr 13 "ns/pid")) ∧
    findContainerForPid c9EnvAllOk 1 1 = some (.error .notInContainer) := by
  refine ⟨?_, ?_, ?_⟩
  · exact (fallback_error_propagation c9Env 1 1 "pidnsA" ["broken", "match"]
      rfl rfl rfl).1 [] ["match"] "broken" (.loadErr "broken") rfl
      (by simp) (by decide)
      ⟨"match", by simp, ⟨"match", [], 11⟩, by decide, rfl⟩
  · exact (fallback_error_propagation c9EnvNs 1 1 "pidnsA" ["nsbad", "match"]
      rfl (by decide) rfl).2.1 [] ["match"] "nsbad" ⟨"nsbad", [], 13⟩
      (.readErr 13 "ns/pid") rfl (by simp) (by decide) (by decide)
      ⟨"match", by simp, ⟨"match", [], 11⟩, by decide, by decide⟩
  · exact ((fallback_error_propagation c9EnvAllOk 1 1 "pidnsA" ["c1", "c2"]
      rfl rfl rfl).2.2 (fun n h => Except.noConfusion h)
      (fun p h => Except.noConfusion h)).mpr
      (fun n hn => ⟨⟨n, [], 7⟩, "pidnsB", rfl, rfl, by decide⟩)

end Lxd
